import Mathlib

/-!
Shallow embedding of `src/main.go` of dchf12/go-blog-fetch.

The program is a linear script: on non-Friday runs it GETs a listing page,
parses article entries and inserts them into a SQLite table
`articles(title, url, date, read, UNIQUE(url, title))`; it then queries the
unread rows ordered by date, slices the first three URLs, POSTs each to a
webhook and marks it read.  The embedding models the table as the list of its
rows in insertion order, the SQL statements as list operations, and `main` as
a function from the run environment (weekday, listing response, webhook
status function) to an observable run result.
-/

namespace GoBlogFetch

/-- One row of the `articles` table:
`title TEXT NOT NULL, url TEXT NOT NULL, date DATE NOT NULL, read BOOLEAN DEFAULT FALSE`.
Dates are stored as `YYYY-MM-DD` strings. -/
structure Article where
  title : String
  url : String
  date : String
  read : Bool
deriving DecidableEq, Repr

/-- The `articles` table, as the list of its rows in insertion order. -/
abbrev Store := List Article

/-- Row test for the `UNIQUE (url, title)` key. -/
def pairMatches (u t : String) (a : Article) : Bool :=
  a.url == u && a.title == t

/-- Number of rows of the store carrying the given (url, title) key. -/
def pairCount (s : Store) (u t : String) : Nat :=
  (s.filter (pairMatches u t)).length

/-- The `UNIQUE (url, title)` invariant of the schema: no key is on more than
one row. -/
def uniquePairs (s : Store) : Prop :=
  ∀ u t, pairCount s u t ≤ 1

/-- One `stmt.Exec(article.title, article.url, article.date)` of
`saveAllArticles`: SQLite appends the row with `read` at its default `FALSE`,
unless the `UNIQUE (url, title)` constraint fails, in which case the Go loop
sees the `UNIQUE constraint failed` error and `continue`s, leaving the table
as it was. -/
def insertArticle (s : Store) (a : Article) : Store :=
  if s.any (pairMatches a.url a.title) then s
  else s ++ [{ a with read := false }]

/-- Embeds `saveAllArticles`: one transaction, the prepared insert executed
once per record, committed at the end. -/
def saveAllArticles (s : Store) (arts : List Article) : Store :=
  arts.foldl insertArticle s

/-- Embeds `markAsRead`: `UPDATE articles SET read = 1 WHERE url = ?`, run in
its own committed transaction. -/
def markAsRead (s : Store) (u : String) : Store :=
  s.map fun a => if a.url = u then { a with read := true } else a

/-- Byte-wise lexicographic comparison of character lists, the order SQLite
uses on TEXT values (memcmp). -/
def listLe : List Char → List Char → Bool
  | [], _ => true
  | _ :: _, [] => false
  | a :: as, b :: bs =>
    if a.toNat < b.toNat then true
    else if b.toNat < a.toNat then false
    else listLe as bs

/-- SQLite TEXT comparison on the `date` column. -/
def dateLe (s t : String) : Bool := listLe s.toList t.toList

/-- Insertion into a date-sorted list, keeping already-present rows first
among equal dates. -/
def insertByDate (a : Article) : List Article → List Article
  | [] => [a]
  | b :: t => if dateLe b.date a.date then b :: insertByDate a t else a :: b :: t

/-- The `ORDER BY date` of the unread query, as a stable insertion sort. -/
def sortByDate : List Article → List Article
  | [] => []
  | a :: t => insertByDate a (sortByDate t)

/-- Embeds the query `SELECT url FROM articles WHERE read = 0 ORDER BY date`
of `main`. -/
def unreadUrls (s : Store) : List String :=
  (sortByDate (s.filter fun a => !a.read)).map (·.url)

/-- Digit test of the Go `time` package parser: the byte is one of
`0123456789`. -/
def goIsDigit (c : Char) : Bool :=
  48 ≤ c.toNat && c.toNat ≤ 57

/-- Numeric value of a digit character (Go `c - '0'`). -/
def dv (c : Char) : Nat := c.toNat - 48

/-- The leap-year rule of Go `time.isLeap`. -/
def isLeap (y : Nat) : Bool :=
  y % 4 == 0 && (y % 100 != 0 || y % 400 == 0)

/-- Days in month `m` of year `y`, as Go `time.daysIn` computes them. -/
def daysIn (m y : Nat) : Nat :=
  if m == 2 then (if isLeap y then 29 else 28)
  else if m == 4 || m == 6 || m == 9 || m == 11 then 30
  else 31

/-- Core of the date handling in `fetchAllArticles`:
`t, err := time.Parse("2006.01.02", date)` then `t.Format("2006-01-02")`.
The layout consumes exactly four year digits, a literal dot, two month
digits, a dot, two day digits and the end of the input; `time.Parse` then
range-checks the month (1..12) and the day (1..daysIn); `Format` re-emits
the same zero-padded digits with dashes.  `none` is a parse error, which the
Go code turns into `log.Fatal(err)`. -/
def convDateChars : List Char → Option String
  | [y1, y2, y3, y4, p1, m1, m2, p2, d1, d2] =>
    if goIsDigit y1 && goIsDigit y2 && goIsDigit y3 && goIsDigit y4 && p1 == '.' &&
       goIsDigit m1 && goIsDigit m2 && p2 == '.' && goIsDigit d1 && goIsDigit d2 then
      let year := ((dv y1 * 10 + dv y2) * 10 + dv y3) * 10 + dv y4
      let month := dv m1 * 10 + dv m2
      let day := dv d1 * 10 + dv d2
      if 1 ≤ month && month ≤ 12 && 1 ≤ day && day ≤ daysIn month year then
        some (String.mk [y1, y2, y3, y4, '-', m1, m2, '-', d1, d2])
      else none
    else none
  | _ => none

/-- The `YYYY.MM.DD` to `YYYY-MM-DD` conversion of `fetchAllArticles`. -/
def convDate (ds : String) : Option String :=
  convDateChars ds.toList

/-- The digit character of `n % 10`. -/
def digitChar (n : Nat) : Char := Char.ofNat (48 + n % 10)

/-- The four zero-padded decimal digit characters of a year below 10000. -/
def yearChars (y : Nat) : List Char :=
  [digitChar (y / 1000), digitChar (y / 100), digitChar (y / 10), digitChar y]

/-- The two zero-padded decimal digit characters of a number below 100. -/
def twoChars (n : Nat) : List Char :=
  [digitChar (n / 10), digitChar n]

/-- The well-formed input string `YYYY.MM.DD`. -/
def dateDotted (y m d : Nat) : String :=
  String.mk (yearChars y ++ ['.'] ++ twoChars m ++ ['.'] ++ twoChars d)

/-- The converted output string `YYYY-MM-DD`. -/
def dateDashed (y m d : Nat) : String :=
  String.mk (yearChars y ++ ['-'] ++ twoChars m ++ ['-'] ++ twoChars d)

/-- One parsed `li` of the listing page: the `a` link's `href` and `title`
attributes and the text of its `.date` element. -/
structure PageItem where
  href : String
  title : String
  date : String
deriving DecidableEq, Repr

/-- The listing-page GET response: HTTP status, and the items the
`.article-list li` selector finds in the body. -/
structure PageResp where
  status : Nat
  items : List PageItem
deriving DecidableEq, Repr

/-- Go `strings.Replace(s, pat, rep, 1)`: replace the first occurrence of
`pat` by `rep`, if any. -/
def replaceOnce (s pat rep : String) : String :=
  match s.splitOn pat with
  | [] => s
  | [x] => x
  | x :: rest => x ++ rep ++ String.intercalate pat rest

/-- The values of Go `time.Weekday`. -/
inductive Weekday
  | sunday | monday | tuesday | wednesday | thursday | friday | saturday
deriving DecidableEq, Repr

/-- The run environment: the wall-clock weekday of `time.Now()`, the listing
GET response, the webhook's HTTP status for each POSTed message (the POST
transport itself succeeding), the trimmed base URL, and `url.JoinPath` on it,
taken as an unspecified total function of the standard library. -/
structure Env where
  weekday : Weekday
  page : PageResp
  webhook : String → Nat
  base : String
  joinUrl : String → String → String

/-- The article-building loop of `fetchAllArticles`: for each `li`, convert
the date (`log.Fatal` on a parse error, modelled as `none`), strip the first
`/articles/` from the href and join the rest onto the base URL. -/
def parseItems (env : Env) : List PageItem → Option (List Article)
  | [] => some []
  | it :: rest =>
    match convDate it.date with
    | none => none
    | some d =>
      match parseItems env rest with
      | none => none
      | some tail =>
        some ({ title := it.title,
                url := env.joinUrl env.base (replaceOnce it.href "/articles/" ""),
                date := d, read := false } :: tail)

/-- Embeds `fetchAllArticles`, given that the listing GET transport succeeds
with response `env.page`: on a non-200 status it prints the status and
returns with the table untouched; otherwise it builds the article list and
runs the save pass.  `none` is the `log.Fatal` of a date parse error. -/
def fetchAllArticles (env : Env) (s : Store) : Option Store :=
  if env.page.status ≠ 200 then some s
  else
    match parseItems env env.page.items with
    | none => none
    | some arts => some (saveAllArticles s arts)

/-- Embeds `notifySlack` for a POST whose transport succeeds with status
`webhook msg`: `err` holds the nil error `http.Post` returned alongside the
response, so the non-200 branch prints the status and then returns that same
nil error. -/
def notifySlack (webhook : String → Nat) (msg : String) : Option String :=
  let err : Option String := none
  if webhook msg ≠ 200 then err
  else none

/-- How a run ends: `finish` prints the completion marker, `panicked` is a
runtime slice-bounds panic, `fatal` is `log.Fatal`. -/
inductive Outcome
  | finish | panicked | fatal
deriving DecidableEq, Repr

/-- Observable result of a run: final table contents, the webhook POST bodies
in order, the number of GETs issued to the listing URL, and how the run
ended. -/
structure RunResult where
  store : Store
  posts : List String
  gets : Nat
  outcome : Outcome
deriving DecidableEq, Repr

/-- The `for _, url := range urls[:3]` body of `main`: POST the URL to the
webhook, `log.Fatal` on a non-nil notify error, otherwise mark the row read
and continue. -/
def notifyLoop (env : Env) : List String → RunResult → RunResult
  | [], r => r
  | u :: rest, r =>
    let r1 : RunResult := { r with posts := r.posts ++ [u] }
    match notifySlack env.webhook u with
    | some _ => { r1 with outcome := Outcome.fatal }
    | none => notifyLoop env rest { r1 with store := markAsRead r1.store u }

/-- The notify step of `main`: query the unread URLs and slice `urls[:3]`.
The slice is a runtime panic whenever fewer than three rows are unread,
because a slice grown by single appends has capacity below 3 then;
otherwise the loop runs over the first three URLs.  `g` is the GET count
accumulated by the fetch step. -/
def notifyPhase (env : Env) (s : Store) (g : Nat) : RunResult :=
  if (unreadUrls s).length < 3 then
    { store := s, posts := [], gets := g, outcome := Outcome.panicked }
  else
    notifyLoop env ((unreadUrls s).take 3)
      { store := s, posts := [], gets := g, outcome := Outcome.finish }

/-- Embeds `main`: run the fetch-and-save pass unless the weekday is Friday,
then always run the notify step. -/
def runMain (env : Env) (s : Store) : RunResult :=
  if env.weekday ≠ Weekday.friday then
    match fetchAllArticles env s with
    | none => { store := s, posts := [], gets := 1, outcome := Outcome.fatal }
    | some s1 => notifyPhase env s1 1
  else notifyPhase env s 0

/-! ### Supporting lemmas -/

theorem notifySlack_eq_none (w : String → Nat) (msg : String) :
    notifySlack w msg = none := by
  unfold notifySlack
  split <;> rfl

theorem notifyLoop_gets (env : Env) (us : List String) (r : RunResult) :
    (notifyLoop env us r).gets = r.gets := by
  induction us generalizing r with
  | nil => rfl
  | cons u rest ih => simp [notifyLoop, notifySlack_eq_none, ih]

theorem notifyPhase_gets (env : Env) (s : Store) (g : Nat) :
    (notifyPhase env s g).gets = g := by
  unfold notifyPhase
  split
  · rfl
  · rw [notifyLoop_gets]

theorem mem_insertByDate {a b : Article} {l : List Article} :
    a ∈ insertByDate b l ↔ a = b ∨ a ∈ l := by
  induction l with
  | nil => simp [insertByDate]
  | cons c rest ih =>
    unfold insertByDate
    split
    · rw [List.mem_cons, ih, List.mem_cons]
      tauto
    · simp only [List.mem_cons]

theorem mem_sortByDate {a : Article} {l : List Article} :
    a ∈ sortByDate l ↔ a ∈ l := by
  induction l with
  | nil => simp [sortByDate]
  | cons b rest ih => simp [sortByDate, mem_insertByDate, ih]

/-! ### Claims -/

/-- C5: with five unread rows dated 2023-01-01 through 2023-01-05 (stored in
scrambled insertion order) and a webhook that always answers 200, the run
sends exactly the three webhook POSTs for the rows dated 01, 02, 03 in
ascending date order, finishes normally, and afterwards those three rows have
`read = true` while the rows dated 04 and 05 still have `read = false`. -/
theorem c5_five_unread_scenario :
    runMain
      { weekday := Weekday.friday, page := ⟨200, []⟩, webhook := fun _ => 200,
        base := "", joinUrl := fun _ p => p }
      [⟨"t3", "u3", "2023-01-03", false⟩, ⟨"t1", "u1", "2023-01-01", false⟩,
       ⟨"t5", "u5", "2023-01-05", false⟩, ⟨"t2", "u2", "2023-01-02", false⟩,
       ⟨"t4", "u4", "2023-01-04", false⟩] =
    { store := [⟨"t3", "u3", "2023-01-03", true⟩, ⟨"t1", "u1", "2023-01-01", true⟩,
                ⟨"t5", "u5", "2023-01-05", false⟩, ⟨"t2", "u2", "2023-01-02", true⟩,
                ⟨"t4", "u4", "2023-01-04", false⟩],
      posts := ["u1", "u2", "u3"], gets := 0, outcome := Outcome.finish } := by
  decide

/-- C6: on a Friday run, the whole run is exactly the notify phase applied to
the untouched store: no GET is issued to the listing URL and no row is
inserted, yet the notify loop over the unread articles still executes. -/
theorem c6_friday_skips_fetch_but_notifies (env : Env) (s : Store)
    (h : env.weekday = Weekday.friday) :
    runMain env s = notifyPhase env s 0 ∧ (runMain env s).gets = 0 := by
  have h1 : runMain env s = notifyPhase env s 0 := by
    unfold runMain
    simp [h]
  exact ⟨h1, by rw [h1, notifyPhase_gets]⟩

/-- Witness for C6 at a concrete Friday environment and store. -/
theorem c6_witness :
    runMain
        { weekday := Weekday.friday, page := ⟨200, []⟩, webhook := fun _ => 200,
          base := "", joinUrl := fun _ p => p }
        [⟨"t1", "u1", "2023-01-01", false⟩] =
      notifyPhase
        { weekday := Weekday.friday, page := ⟨200, []⟩, webhook := fun _ => 200,
          base := "", joinUrl := fun _ p => p }
        [⟨"t1", "u1", "2023-01-01", false⟩] 0 ∧
    (runMain
        { weekday := Weekday.friday, page := ⟨200, []⟩, webhook := fun _ => 200,
          base := "", joinUrl := fun _ p => p }
        [⟨"t1", "u1", "2023-01-01", false⟩]).gets = 0 :=
  c6_friday_skips_fetch_but_notifies _ _ rfl

/-- C7: after `markAsRead` succeeds for a URL, the unread query
`SELECT url FROM articles WHERE read = 0 ORDER BY date` no longer returns
that URL, whatever the store contents. -/
theorem c7_marked_url_no_longer_unread (s : Store) (u : String) :
    (unreadUrls (markAsRead s u)).count u = 0 := by
  rw [List.count_eq_zero]
  intro hmem
  rw [unreadUrls, List.mem_map] at hmem
  obtain ⟨a, ha, hau⟩ := hmem
  rw [mem_sortByDate, List.mem_filter] at ha
  obtain ⟨ham, har⟩ := ha
  rw [markAsRead, List.mem_map] at ham
  obtain ⟨b, _, hba⟩ := ham
  by_cases hbu : b.url = u
  · rw [← hba, if_pos hbu] at har
    simp at har
  · rw [← hba, if_neg hbu] at hau
    exact hbu hau

/-- C8: when the listing GET answers a non-200 status on a non-Friday run,
`fetchAllArticles` logs and returns non-fatally with the store untouched (no
item parsed, no row inserted), and the run goes on to the notify phase. -/
theorem c8_non200_listing_aborts_pass (env : Env) (s : Store)
    (hw : env.weekday ≠ Weekday.friday) (hs : env.page.status ≠ 200) :
    fetchAllArticles env s = some s ∧ runMain env s = notifyPhase env s 1 := by
  have hf : fetchAllArticles env s = some s := by
    unfold fetchAllArticles
    simp [hs]
  refine ⟨hf, ?_⟩
  unfold runMain
  simp [hw, hf]

/-- Witness for C8: a Monday run whose listing GET answers 500. -/
theorem c8_witness :
    fetchAllArticles
        { weekday := Weekday.monday, page := ⟨500, [⟨"/articles/x", "X", "2023.06.20"⟩]⟩,
          webhook := fun _ => 200, base := "b", joinUrl := fun _ p => p }
        [] = some [] ∧
    runMain
        { weekday := Weekday.monday, page := ⟨500, [⟨"/articles/x", "X", "2023.06.20"⟩]⟩,
          webhook := fun _ => 200, base := "b", joinUrl := fun _ p => p }
        [] =
      notifyPhase
        { weekday := Weekday.monday, page := ⟨500, [⟨"/articles/x", "X", "2023.06.20"⟩]⟩,
          webhook := fun _ => 200, base := "b", joinUrl := fun _ p => p }
        [] 1 :=
  c8_non200_listing_aborts_pass _ _ (by decide) (by decide)

/-- C10: whenever the unread query returns fewer than three URLs, the slice
`urls[:3]` of the notify step is out of range: the run panics with no webhook
POST sent and the store untouched, in particular so on a Friday run. -/
theorem c10_short_unread_list_panics (env : Env) (s : Store)
    (h : (unreadUrls s).length < 3) :
    (∀ g, notifyPhase env s g =
      { store := s, posts := [], gets := g, outcome := Outcome.panicked }) ∧
    (env.weekday = Weekday.friday → runMain env s =
      { store := s, posts := [], gets := 0, outcome := Outcome.panicked }) := by
  have hp : ∀ g, notifyPhase env s g =
      { store := s, posts := [], gets := g, outcome := Outcome.panicked } := by
    intro g
    unfold notifyPhase
    simp [h]
  refine ⟨hp, fun hw => ?_⟩
  unfold runMain
  simp [hw, hp]

/-- Witness for C10: a Friday run over a store with two unread rows. -/
theorem c10_witness :
    runMain
        { weekday := Weekday.friday, page := ⟨200, []⟩, webhook := fun _ => 200,
          base := "", joinUrl := fun _ p => p }
        [⟨"t1", "u1", "2023-01-01", false⟩, ⟨"t2", "u2", "2023-01-02", false⟩] =
      { store := [⟨"t1", "u1", "2023-01-01", false⟩, ⟨"t2", "u2", "2023-01-02", false⟩],
        posts := [], gets := 0, outcome := Outcome.panicked } :=
  (c10_short_unread_list_panics _ _ (by decide)).2 rfl

/-- C1, evaluated at the failing input: the webhook answers 500 to every
POST, yet `notifySlack` returns the nil error `http.Post` produced (its
non-200 branch returns `err`, which is nil there), so `main` treats every
notify call as a success, marks all three notified rows `read = true` and
finishes normally — against the claim that a non-200 status is a
caller-visible error and leaves the read flag false. -/
theorem c1_status_500_still_marks_read :
    notifySlack (fun _ => 500) "u1" = none ∧
    runMain
      { weekday := Weekday.friday, page := ⟨200, []⟩, webhook := fun _ => 500,
        base := "", joinUrl := fun _ p => p }
      [⟨"t1", "u1", "2023-01-01", false⟩, ⟨"t2", "u2", "2023-01-02", false⟩,
       ⟨"t3", "u3", "2023-01-03", false⟩] =
    { store := [⟨"t1", "u1", "2023-01-01", true⟩, ⟨"t2", "u2", "2023-01-02", true⟩,
                ⟨"t3", "u3", "2023-01-03", true⟩],
      posts := ["u1", "u2", "u3"], gets := 0, outcome := Outcome.finish } := by
  exact ⟨rfl, by decide⟩

/-- C2, evaluated at the failing input: with only two unread rows in the
store, the run panics on the slice `urls[:3]` and processes none of them
(no webhook POST, no row marked), against the claim that the processed
articles are exactly the unread ones with the earliest dates. -/
theorem c2_two_unread_rows_panic :
    runMain
      { weekday := Weekday.friday, page := ⟨200, []⟩, webhook := fun _ => 200,
        base := "", joinUrl := fun _ p => p }
      [⟨"t1", "u1", "2023-01-01", false⟩, ⟨"t2", "u2", "2023-01-02", false⟩] =
    { store := [⟨"t1", "u1", "2023-01-01", false⟩, ⟨"t2", "u2", "2023-01-02", false⟩],
      posts := [], gets := 0, outcome := Outcome.panicked } := by
  decide

/-- C9 counterexample: the schema only makes the pair (url, title) unique, so
two rows may share a URL; `UPDATE articles SET read = 1 WHERE url = ?` then
flips the read flag of both rows, not of exactly one. -/
theorem c9_counterexample :
    (((markAsRead
        [⟨"a", "u", "2023-01-01", false⟩, ⟨"b", "u", "2023-01-02", false⟩]
        "u").filter fun a => a.read).length = 2) ∧
    (([⟨"a", "u", "2023-01-01", false⟩,
       (⟨"b", "u", "2023-01-02", false⟩ : Article)].filter fun a => a.read).length = 0) := by
  decide

/-- C9 amended: `markAsRead` keeps the number of rows and rewrites row `i`
from row `i` alone: the read flag becomes true when that row's url is the
updated one, and the row is unchanged otherwise — so all rows carrying the
URL are updated (exactly one when the URL is on a single row), every other
row is untouched, and no other field changes. -/
theorem c9_markAsRead_frame (s : Store) (u : String) (i : Nat) (a : Article)
    (h : s[i]? = some a) :
    (markAsRead s u).length = s.length ∧
    (markAsRead s u)[i]? =
      some (if a.url = u then { a with read := true } else a) := by
  refine ⟨by simp [markAsRead], ?_⟩
  rw [markAsRead, List.getElem?_map, h, Option.map_some']

/-- Witness for C9's amended theorem at a concrete store and index. -/
theorem c9_witness :
    (markAsRead [⟨"a", "u", "2023-01-01", false⟩] "u").length = 1 ∧
    (markAsRead [⟨"a", "u", "2023-01-01", false⟩] "u")[0]? =
      some (if ("u" : String) = "u"
            then { (⟨"a", "u", "2023-01-01", false⟩ : Article) with read := true }
            else ⟨"a", "u", "2023-01-01", false⟩) :=
  c9_markAsRead_frame [⟨"a", "u", "2023-01-01", false⟩] "u" 0
    ⟨"a", "u", "2023-01-01", false⟩ rfl

theorem pairCount_eq_countP (s : Store) (u t : String) :
    pairCount s u t = s.countP (pairMatches u t) := by
  rw [List.countP_eq_length_filter]
  rfl

theorem pairCount_append_single (s : Store) (b : Article) (u t : String) :
    pairCount (s ++ [b]) u t =
      pairCount s u t + (if pairMatches u t b then 1 else 0) := by
  rw [pairCount_eq_countP, pairCount_eq_countP, List.countP_append,
    List.countP_cons, List.countP_nil, Nat.zero_add]

theorem any_pair_iff (s : Store) (u t : String) :
    s.any (pairMatches u t) = true ↔ 0 < pairCount s u t := by
  rw [pairCount_eq_countP, List.countP_pos_iff, List.any_eq_true]

theorem pairCount_insertArticle_pos (s : Store) (a : Article) (u t : String)
    (h : 0 < pairCount s u t) :
    pairCount (insertArticle s a) u t = pairCount s u t := by
  unfold insertArticle
  split
  · rfl
  · rename_i hs
    rw [pairCount_append_single]
    by_cases hb : pairMatches u t { a with read := false } = true
    · exfalso
      have hu : a.url = u ∧ a.title = t := by simpa [pairMatches] using hb
      apply hs
      rw [any_pair_iff, hu.1, hu.2]
      exact h
    · simp [hb]

theorem uniquePairs_insertArticle (s : Store) (a : Article) (h : uniquePairs s) :
    uniquePairs (insertArticle s a) := by
  intro u t
  unfold insertArticle
  split
  · exact h u t
  · rename_i hs
    rw [pairCount_append_single]
    by_cases hb : pairMatches u t { a with read := false } = true
    · have hu : a.url = u ∧ a.title = t := by simpa [pairMatches] using hb
      have h0 : pairCount s u t = 0 := by
        by_contra hne
        apply hs
        rw [any_pair_iff, hu.1, hu.2]
        omega
      simp [hb, h0]
    · simp [hb]
      exact h u t

theorem pairCount_saveAllArticles_pos (arts : List Article) :
    ∀ (s : Store) (u t : String), 0 < pairCount s u t →
      pairCount (saveAllArticles s arts) u t = pairCount s u t := by
  induction arts with
  | nil =>
    intro s u t _
    rfl
  | cons a rest ih =>
    intro s u t h
    have h1 := pairCount_insertArticle_pos s a u t h
    have h2 := ih (insertArticle s a) u t (by rw [h1]; exact h)
    calc pairCount (saveAllArticles s (a :: rest)) u t
        = pairCount (saveAllArticles (insertArticle s a) rest) u t := rfl
      _ = pairCount (insertArticle s a) u t := h2
      _ = pairCount s u t := h1

theorem uniquePairs_saveAllArticles (arts : List Article) :
    ∀ s : Store, uniquePairs s → uniquePairs (saveAllArticles s arts) := by
  induction arts with
  | nil =>
    intro s h
    exact h
  | cons a rest ih =>
    intro s h
    exact ih (insertArticle s a) (uniquePairs_insertArticle s a h)

/-- C3: a save pass never duplicates an (url, title) pair: inserting a pair
already present is skipped, leaving the row count of that pair at 1, and the
uniqueness of (url, title) is an invariant preserved by every save pass. -/
theorem c3_duplicate_insert_idempotent (s : Store) (arts : List Article) :
    (∀ u t, pairCount s u t = 1 → pairCount (saveAllArticles s arts) u t = 1) ∧
    (uniquePairs s → uniquePairs (saveAllArticles s arts)) := by
  refine ⟨fun u t h => ?_, uniquePairs_saveAllArticles arts s⟩
  rw [pairCount_saveAllArticles_pos arts s u t (by omega), h]

/-- Witness for C3: re-inserting the stored ("U", "T") pair twice, with other
dates and read flags, leaves its row count at 1. -/
theorem c3_witness :
    pairCount
      (saveAllArticles [⟨"T", "U", "2023-01-01", false⟩]
        [⟨"T", "U", "2023-02-02", false⟩, ⟨"T", "U", "2023-03-03", true⟩])
      "U" "T" = 1 :=
  (c3_duplicate_insert_idempotent _ _).1 "U" "T" (by decide)

theorem digitChar_toNat (n : Nat) : (digitChar n).toNat = 48 + n % 10 := by
  have h : n % 10 < 10 := Nat.mod_lt _ (by omega)
  unfold digitChar
  revert h
  generalize n % 10 = k
  intro h
  interval_cases k <;> decide

theorem goIsDigit_digitChar (n : Nat) : goIsDigit (digitChar n) = true := by
  have h : n % 10 < 10 := Nat.mod_lt _ (by omega)
  simp only [goIsDigit, digitChar_toNat, Bool.and_eq_true, decide_eq_true_eq]
  omega

theorem dv_digitChar (n : Nat) : dv (digitChar n) = n % 10 := by
  simp [dv, digitChar_toNat]

theorem dv_le_nine {c : Char} (h : goIsDigit c = true) : dv c ≤ 9 := by
  simp only [goIsDigit, Bool.and_eq_true, decide_eq_true_eq] at h
  unfold dv
  omega

theorem digitChar_dv {c : Char} (h : goIsDigit c = true) : digitChar (dv c) = c := by
  simp only [goIsDigit, Bool.and_eq_true, decide_eq_true_eq] at h
  have h48 : 48 + dv c % 10 = c.toNat := by
    unfold dv
    omega
  rw [digitChar, h48, Char.ofNat_toNat]

theorem digitChar_eq_of {c : Char} {n : Nat} (hc : goIsDigit c = true)
    (hn : n % 10 = dv c) : digitChar n = c := by
  have h9 : dv c ≤ 9 := dv_le_nine hc
  calc digitChar n = digitChar (dv c) := by
        show Char.ofNat (48 + n % 10) = Char.ofNat (48 + dv c % 10)
        rw [hn, Nat.mod_eq_of_lt (by omega)]
    _ = c := digitChar_dv hc

theorem daysIn_le_31 (m y : Nat) : daysIn m y ≤ 31 := by
  unfold daysIn
  split
  · split <;> omega
  · split <;> omega

theorem convDate_dotted (y m d : Nat) (hy : y < 10000) (hm1 : 1 ≤ m) (hm2 : m ≤ 12)
    (hd1 : 1 ≤ d) (hd2 : d ≤ daysIn m y) :
    convDate (dateDotted y m d) = some (dateDashed y m d) := by
  have hm100 : m < 100 := by omega
  have hd100 : d < 100 := by
    have := daysIn_le_31 m y
    omega
  have ey : ((dv (digitChar (y / 1000)) * 10 + dv (digitChar (y / 100))) * 10
      + dv (digitChar (y / 10))) * 10 + dv (digitChar y) = y := by
    simp only [dv_digitChar]
    omega
  have em : dv (digitChar (m / 10)) * 10 + dv (digitChar m) = m := by
    simp only [dv_digitChar]
    omega
  have ed : dv (digitChar (d / 10)) * 10 + dv (digitChar d) = d := by
    simp only [dv_digitChar]
    omega
  show convDateChars
      [digitChar (y / 1000), digitChar (y / 100), digitChar (y / 10), digitChar y, '.',
       digitChar (m / 10), digitChar m, '.', digitChar (d / 10), digitChar d] =
    some (dateDashed y m d)
  simp only [convDateChars, goIsDigit_digitChar, beq_self_eq_true, Bool.and_self,
    Bool.true_and, Bool.and_true, if_true]
  rw [ey, em, ed]
  rw [if_pos (by simp only [Bool.and_eq_true, decide_eq_true_eq]; exact ⟨⟨⟨hm1, hm2⟩, hd1⟩, hd2⟩)]
  rfl

theorem convDateChars_some {l : List Char} {out : String}
    (h : convDateChars l = some out) :
    ∃ y m d : Nat, y < 10000 ∧ 1 ≤ m ∧ m ≤ 12 ∧ 1 ≤ d ∧ d ≤ daysIn m y ∧
      l = [digitChar (y / 1000), digitChar (y / 100), digitChar (y / 10), digitChar y, '.',
           digitChar (m / 10), digitChar m, '.', digitChar (d / 10), digitChar d] ∧
      out = dateDashed y m d := by
  unfold convDateChars at h
  split at h
  · rename_i y1 y2 y3 y4 p1 m1 m2 p2 d1 d2
    split at h
    · rename_i hc
      dsimp only at h
      split at h
      · rename_i hr
        simp only [Bool.and_eq_true, beq_iff_eq, decide_eq_true_eq] at hc hr
        obtain ⟨⟨⟨⟨⟨⟨⟨⟨⟨hy1, hy2⟩, hy3⟩, hy4⟩, hp1⟩, hm1⟩, hm2⟩, hp2⟩, hd1⟩, hd2⟩ := hc
        obtain ⟨⟨⟨hr1, hr2⟩, hr3⟩, hr4⟩ := hr
        have b1 := dv_le_nine hy1
        have b2 := dv_le_nine hy2
        have b3 := dv_le_nine hy3
        have b4 := dv_le_nine hy4
        have bm1 := dv_le_nine hm1
        have bm2 := dv_le_nine hm2
        have bd1 := dv_le_nine hd1
        have bd2 := dv_le_nine hd2
        refine ⟨((dv y1 * 10 + dv y2) * 10 + dv y3) * 10 + dv y4,
          dv m1 * 10 + dv m2, dv d1 * 10 + dv d2,
          by omega, hr1, hr2, hr3, hr4, ?_, ?_⟩
        · have q1 : digitChar ((((dv y1 * 10 + dv y2) * 10 + dv y3) * 10 + dv y4) / 1000) = y1 :=
            digitChar_eq_of hy1 (by omega)
          have q2 : digitChar ((((dv y1 * 10 + dv y2) * 10 + dv y3) * 10 + dv y4) / 100) = y2 :=
            digitChar_eq_of hy2 (by omega)
          have q3 : digitChar ((((dv y1 * 10 + dv y2) * 10 + dv y3) * 10 + dv y4) / 10) = y3 :=
            digitChar_eq_of hy3 (by omega)
          have q4 : digitChar (((dv y1 * 10 + dv y2) * 10 + dv y3) * 10 + dv y4) = y4 :=
            digitChar_eq_of hy4 (by omega)
          have qm1 : digitChar ((dv m1 * 10 + dv m2) / 10) = m1 :=
            digitChar_eq_of hm1 (by omega)
          have qm2 : digitChar (dv m1 * 10 + dv m2) = m2 :=
            digitChar_eq_of hm2 (by omega)
          have qd1 : digitChar ((dv d1 * 10 + dv d2) / 10) = d1 :=
            digitChar_eq_of hd1 (by omega)
          have qd2 : digitChar (dv d1 * 10 + dv d2) = d2 :=
            digitChar_eq_of hd2 (by omega)
          rw [q1, q2, q3, q4, qm1, qm2, qd1, qd2, hp1, hp2]
        · have hout : String.mk [y1, y2, y3, y4, '-', m1, m2, '-', d1, d2] = out :=
            Option.some.inj h
          rw [← hout]
          show String.mk _ =
            String.mk [digitChar ((((dv y1 * 10 + dv y2) * 10 + dv y3) * 10 + dv y4) / 1000),
              digitChar ((((dv y1 * 10 + dv y2) * 10 + dv y3) * 10 + dv y4) / 100),
              digitChar ((((dv y1 * 10 + dv y2) * 10 + dv y3) * 10 + dv y4) / 10),
              digitChar (((dv y1 * 10 + dv y2) * 10 + dv y3) * 10 + dv y4), '-',
              digitChar ((dv m1 * 10 + dv m2) / 10), digitChar (dv m1 * 10 + dv m2), '-',
              digitChar ((dv d1 * 10 + dv d2) / 10), digitChar (dv d1 * 10 + dv d2)]
          rw [digitChar_eq_of hy1 (by omega), digitChar_eq_of hy2 (by omega),
            digitChar_eq_of hy3 (by omega), digitChar_eq_of hy4 (by omega),
            digitChar_eq_of hm1 (by omega), digitChar_eq_of hm2 (by omega),
            digitChar_eq_of hd1 (by omega), digitChar_eq_of hd2 (by omega)]
      · simp at h
    · simp at h
  · simp at h

theorem parseItems_none {env : Env} {items : List PageItem}
    (h : ∃ it ∈ items, convDate it.date = none) :
    parseItems env items = none := by
  induction items with
  | nil => simp at h
  | cons a rest ih =>
    obtain ⟨it, hmem, hconv⟩ := h
    rw [List.mem_cons] at hmem
    unfold parseItems
    rcases hmem with rfl | hmem
    · rw [hconv]
    · cases hca : convDate a.date with
      | none => rfl
      | some da => rw [ih ⟨it, hmem, hconv⟩]

/-- C4: soundness and completeness of the `YYYY.MM.DD` to `YYYY-MM-DD`
conversion of `fetchAllArticles`: every well-formed dotted calendar date
converts to the corresponding dashed date; every string the conversion
accepts is such a well-formed dotted date with the corresponding output; and
a date string the conversion rejects makes the whole run end in `log.Fatal`
before anything is saved or notified. -/
theorem c4_date_conversion :
    (∀ y m d : Nat, y < 10000 → 1 ≤ m → m ≤ 12 → 1 ≤ d → d ≤ daysIn m y →
      convDate (dateDotted y m d) = some (dateDashed y m d)) ∧
    (∀ ds out : String, convDate ds = some out →
      ∃ y m d : Nat, y < 10000 ∧ 1 ≤ m ∧ m ≤ 12 ∧ 1 ≤ d ∧ d ≤ daysIn m y ∧
        ds = dateDotted y m d ∧ out = dateDashed y m d) ∧
    (∀ (env : Env) (s : Store), env.weekday ≠ Weekday.friday → env.page.status = 200 →
      (∃ it ∈ env.page.items, convDate it.date = none) →
      runMain env s = { store := s, posts := [], gets := 1, outcome := Outcome.fatal }) := by
  refine ⟨convDate_dotted, fun ds out h => ?_, fun env s hw hs h => ?_⟩
  · obtain ⟨y, m, d, h1, h2, h3, h4, h5, hl, hout⟩ := convDateChars_some h
    exact ⟨y, m, d, h1, h2, h3, h4, h5, String.ext hl, hout⟩
  · have hf : fetchAllArticles env s = none := by
      unfold fetchAllArticles
      rw [if_neg (by omega), parseItems_none h]
    unfold runMain
    simp [hw, hf]

/-- Witness for C4: the conversion at the concrete date 2023.06.20. -/
theorem c4_witness :
    dateDotted 2023 6 20 = "2023.06.20" ∧ dateDashed 2023 6 20 = "2023-06-20" ∧
    convDate (dateDotted 2023 6 20) = some (dateDashed 2023 6 20) :=
  ⟨by decide, by decide,
    c4_date_conversion.1 2023 6 20 (by decide) (by decide) (by decide) (by decide) (by decide)⟩

end GoBlogFetch
